import Mathlib

/-!
Verification development for the ledger-backed message-feed client.

The repository holds two variants of the client module: an earlier one
whose message accounts carry two 32-byte pointer fields (nextMessage,
from) and a later, ban-capable one whose message accounts carry three
(nextMessage, from, creator).  The later variant is the one all the
composition and ban claims reference; the earlier variant is embedded
where a claim cites it (its refreshMessageFeed lacks the empty-view
guard).

Modelling choices, all taken from the source:
  - a public key is the value of its 32 raw bytes read big-endian, so
    the all-zero sentinel is the number 0 and key comparison is value
    comparison, matching the BN-based PublicKey equality;
  - account decoding follows the buffer-layout library exactly: a u8
    field fails only when the buffer is empty at its offset, a blob(32)
    field silently truncates on a short buffer, and a cstr field takes
    the bytes up to the first zero byte or the whole remaining buffer
    when no terminator is present;
  - the network is a map from keys to account infos; a missing entry is
    the read-side failure of getAccountInfo;
  - the unbounded JS loops are step-indexed: the fuel counts loop
    iterations, and exhausting it yields a distinguished outcome that
    carries the loop state, so non-termination is visible.
-/

/-- Bytes are modelled as natural numbers in the range 0..255. -/
abbrev Byte := Nat

/-- Value of a byte blob as a public key, matching the BN-based value
semantics of the PublicKey constructor: bytes are read big-endian and
any all-zero blob equals the sentinel key 0. -/
def bytesToKey (b : List Byte) : Nat :=
  b.foldl (fun acc x => acc * 256 + x) 0

/-- Big-endian encoding of a key into a fixed number of bytes, used to
build concrete ledger accounts in witnesses. -/
def natToBytes : Nat → Nat → List Byte
  | 0, _ => []
  | len + 1, k => natToBytes len (k / 256) ++ [k % 256]

/-- Decoding of a BufferLayout cstr field: the bytes up to the first
zero byte, or the whole remaining buffer when no terminator is present
(the library treats the end of the buffer as an implicit terminator). -/
def cstr (b : List Byte) : List Byte :=
  b.takeWhile (fun x => x != 0)

/-- Raw account as returned by the ledger RPC: the owning program
identity and the data bytes. -/
structure AccountInfo where
  owner : Nat
  data : List Byte
deriving DecidableEq

/-- Decoded message account, ban-capable layout: 32-byte nextMessage,
32-byte from, 32-byte creator, then a cstr text field at offset 96. -/
structure MessageData where
  nextMessage : Nat
  «from» : Nat
  programId : Nat
  text : List Byte
deriving DecidableEq

/-- Entry of the local feed view. -/
structure Message where
  publicKey : Nat
  «from» : Nat
  name : String
  text : List Byte
deriving DecidableEq

/-- The world the synchronizer runs against: the ledger read interface
and the pure display-name resolution publicKeyToName. -/
structure Env where
  ledger : Nat → Option AccountInfo
  nameOf : Nat → String

/-- Finite ledger built from an association list, for concrete runs. -/
def mkLedger (l : List (Nat × AccountInfo)) : Nat → Option AccountInfo :=
  fun k => (l.find? (fun p => p.1 == k)).map (fun p => p.2)

/-- readMessage of the ban-capable variant: getAccountInfo then decode
with layout [blob32 nextMessage, blob32 from, blob32 creator, cstr
text].  A missing account is the read failure; the decode itself never
fails (blob and cstr are total on any buffer). -/
def readMessage (env : Env) (message : Nat) : Option MessageData :=
  (env.ledger message).map fun info =>
    { nextMessage := bytesToKey (info.data.take 32)
      «from» := bytesToKey ((info.data.drop 32).take 32)
      programId := info.owner
      text := cstr (info.data.drop 96) }

/-- readMessage of the earlier variant: layout [blob32 nextMessage,
blob32 from, cstr text], text at offset 64. -/
def readMessageV1 (env : Env) (message : Nat) : Option MessageData :=
  (env.ledger message).map fun info =>
    { nextMessage := bytesToKey (info.data.take 32)
      «from» := bytesToKey ((info.data.drop 32).take 32)
      programId := info.owner
      text := cstr (info.data.drop 64) }

/-- Outcome of a step-indexed run of refreshMessageFeed.  ok is the
normal return carrying the final view and the number of times the
optional observer was invoked; fail is a thrown exception (a failed
account read, or the undefined access of the earlier variant); spin
means the fuel ran out with the loop still going, carrying the view and
observer count at that point. -/
inductive Outcome where
  | ok (view : List Message) (calls : Nat)
  | fail
  | spin (view : List Message) (calls : Nat)
deriving DecidableEq

/-- View entry built from a pointer and its decoded account, exactly as
the push in the refresh loop builds it. -/
def mkEntry (env : Env) (p : Nat × MessageData) : Message :=
  { publicKey := p.1
    «from» := p.2.«from»
    name := env.nameOf p.2.«from»
    text := p.2.text }

/-- Main loop of refreshMessageFeed once the pointer is non-null: stop
on the sentinel, otherwise read, append, notify the observer when
present, and advance to nextMessage.  obs records whether the optional
onNewMessage callback was supplied. -/
def refreshIter (env : Env) (obs : Bool) :
    Nat → Nat → List Message → Nat → Outcome
  | 0, _, view, calls => .spin view calls
  | fuel + 1, message, view, calls =>
    if message = 0 then .ok view calls
    else
      match readMessage env message with
      | none => .fail
      | some d =>
        refreshIter env obs fuel d.nextMessage
          (view ++ [mkEntry env (message, d)])
          (calls + (if obs then 1 else 0))

/-- refreshMessageFeed of the ban-capable variant.  With a null start
pointer it returns at once on an empty view, otherwise re-reads the
last known entry and resumes from its nextMessage. -/
def refreshMessageFeed (env : Env) (obs : Bool) (fuel : Nat)
    (message : Option Nat) (view : List Message) : Outcome :=
  match message with
  | some m => refreshIter env obs fuel m view 0
  | none =>
    match view.getLast? with
    | none => .ok view 0
    | some lastEntry =>
      match readMessage env lastEntry.publicKey with
      | none => .fail
      | some d => refreshIter env obs fuel d.nextMessage view 0

/-- Loop of the earlier variant, identical control flow but decoding
with the two-pointer layout. -/
def refreshIterV1 (env : Env) (obs : Bool) :
    Nat → Nat → List Message → Nat → Outcome
  | 0, _, view, calls => .spin view calls
  | fuel + 1, message, view, calls =>
    if message = 0 then .ok view calls
    else
      match readMessageV1 env message with
      | none => .fail
      | some d =>
        refreshIterV1 env obs fuel d.nextMessage
          (view ++ [mkEntry env (message, d)])
          (calls + (if obs then 1 else 0))

/-- refreshMessageFeed of the earlier variant.  It has no empty-view
guard: with a null start pointer and an empty view it indexes the array
at position minus one and dereferences undefined, which throws. -/
def refreshMessageFeedV1 (env : Env) (obs : Bool) (fuel : Nat)
    (message : Option Nat) (view : List Message) : Outcome :=
  match message with
  | some m => refreshIterV1 env obs fuel m view 0
  | none =>
    match view.getLast? with
    | none => .fail
    | some lastEntry =>
      match readMessageV1 env lastEntry.publicKey with
      | none => .fail
      | some d => refreshIterV1 env obs fuel d.nextMessage view 0

/-- Boolean well-formedness of a ledger chain segment: starting at a
pointer, the listed pointer-and-data pairs are exactly what successive
reads yield, and the segment ends on the sentinel. -/
def chainOk (env : Env) : Nat → List (Nat × MessageData) → Bool
  | p, [] => p == 0
  | p, (q, d) :: rest =>
    p == q && p != 0 && (readMessage env q == some d) &&
      chainOk env d.nextMessage rest

/-- One account reference of an instruction with its signer flag. -/
structure AccountMeta where
  pubkey : Nat
  isSigner : Bool
deriving DecidableEq

/-- One instruction of a composed transaction: either a system-program
account allocation, or a program instruction given by its ordered key
list, target program and optional data payload (the initialize-user
instruction carries no data field). -/
inductive Instruction where
  | createAccount (fromPubkey : Nat) (newAccountPubkey : Nat)
      (lamports : Nat) (space : Nat) (programId : Nat)
  | raw (keys : List AccountMeta) (programId : Nat)
      (data : Option (List Byte))
deriving DecidableEq

/-- postMessageWithProgramId of the ban-capable variant, as the ordered
instruction list of the transaction it composes.  payer stands for the
freshly airdropped payer account and freshUser for the account the
function creates itself when userAccount is null.  Instruction order
follows the source: allocate the message account; when userAccount is
null, allocate and then initialize a new user account; finally the post
instruction whose keys are user and message as signers, then the
previous message as a non-signer when present, then the ban target as a
non-signer when both it and the previous message are present. -/
def postMessageWithProgramId (programId : Nat) (userAccount : Option Nat)
    (payer : Nat) (freshUser : Nat) (messageAccount : Nat)
    (text : List Byte) (previousMessagePublicKey : Option Nat)
    (userToBan : Option Nat) : List Instruction :=
  let alloc := Instruction.createAccount payer messageAccount 1
    (32 + 32 + 32 + text.length) programId
  let userKey := userAccount.getD freshUser
  let userInstrs :=
    match userAccount with
    | some _ => []
    | none =>
      [Instruction.createAccount payer freshUser 1 (1 + 32) programId,
       Instruction.raw
         [⟨freshUser, true⟩, ⟨messageAccount, true⟩] programId none]
  let baseKeys : List AccountMeta :=
    [⟨userKey, true⟩, ⟨messageAccount, true⟩]
  let keys :=
    match previousMessagePublicKey with
    | none => baseKeys
    | some prev =>
      baseKeys ++ [⟨prev, false⟩] ++
        (match userToBan with
         | none => []
         | some b => [(⟨b, false⟩ : AccountMeta)])
  [alloc] ++ userInstrs ++ [Instruction.raw keys programId (some text)]

/-- Feed metadata carried by a ready config response, the fields the
poller returns: firstMessage and programId as key values, loginMethod
and url as opaque strings. -/
structure FeedMeta where
  firstMessage : Nat
  loginMethod : String
  programId : Nat
  url : String
deriving DecidableEq

/-- One scripted outcome of a poll iteration: err is a transport or
parse failure thrown by fetch or by the JSON parse (caught, logged, not
rethrown); ok carries the loading flag and the metadata payload of a
successful response. -/
inductive FetchResult where
  | err
  | ok (loading : Bool) (config : FeedMeta)
deriving DecidableEq

/-- Whether a response makes the poller return: only a successful
response whose loading flag is false. -/
def isReady : FetchResult → Bool
  | .ok false _ => true
  | _ => false

/-- getFirstMessage run against a scripted response sequence.  The
result carries the returned metadata, the number of fetch attempts
consumed, and the total milliseconds slept (the loop sleeps a fixed
1000 ms after every attempt that does not return).  none means the
script was exhausted with the loop still polling, which models the fact
that the function cannot return before a ready response is observed. -/
def getFirstMessage : List FetchResult → Option (FeedMeta × Nat × Nat)
  | [] => none
  | .ok false config :: _ => some (config, 1, 0)
  | .ok true _ :: rest =>
    match getFirstMessage rest with
    | none => none
    | some (m, attempts, slept) => some (m, attempts + 1, slept + 1000)
  | .err :: rest =>
    match getFirstMessage rest with
    | none => none
    | some (m, attempts, slept) => some (m, attempts + 1, slept + 1000)

/-- Failure cases of userBanned.  accountNotFound is the read failure
of getAccountInfo when the identity has no backing account, raised
before any decoding; malformedAccount is the decode failure, which with
the deployed layout occurs exactly when the u8 read of the banned flag
is out of range, i.e. on an empty data buffer (the blob(32) creator
field silently truncates and never fails). -/
inductive UserBannedError where
  | accountNotFound
  | malformedAccount
deriving DecidableEq

/-- userBanned: read the account, decode [u8 banned, blob32 creator]
with buffer-layout semantics, and return whether the flag is nonzero. -/
def userBanned (ledger : Nat → Option AccountInfo) (user : Nat) :
    Except UserBannedError Bool :=
  match ledger user with
  | none => .error .accountNotFound
  | some info =>
    match info.data.head? with
    | none => .error .malformedAccount
    | some banned => .ok (banned != 0)

/-- Modelled from the spec: the bit-exact on-chain Message layout of
the ban-capable deployment, three 32-byte pointer fields followed by
the text bytes and one null terminator.  This definition follows the
spec wording (the on-chain writer itself is not part of the client
source) and exists to be compared with the allocation size the
composer requests. -/
def specDeclaredMessageLayout (next fromKey creator : Nat)
    (text : List Byte) : List Byte :=
  natToBytes 32 next ++ natToBytes 32 fromKey ++ natToBytes 32 creator ++
    text ++ [0]

/-- Raw data bytes of a ban-capable message account with the given
field values, sized exactly as the composer allocates it: three 32-byte
pointer blobs followed by the text bytes with no terminator. -/
def accBytes (next fromKey creator : Nat) (text : List Byte) : List Byte :=
  natToBytes 32 next ++ natToBytes 32 fromKey ++ natToBytes 32 creator ++ text

/-- Concrete three-message ledger 1 -> 2 -> 3 -> sentinel, used by the
witnesses. -/
def envABC : Env :=
  { ledger := mkLedger
      [(1, ⟨9, accBytes 2 0 0 [65]⟩),
       (2, ⟨9, accBytes 3 0 0 [66]⟩),
       (3, ⟨9, accBytes 0 0 0 [67]⟩)]
    nameOf := fun _ => "user" }

/-- Concrete one-message cyclic ledger: the account at key 1 points
back to itself. -/
def envCyc : Env :=
  { ledger := mkLedger [(1, ⟨9, accBytes 1 0 0 [65]⟩)]
    nameOf := fun _ => "user" }

theorem natToBytes_length (len : Nat) : ∀ k, (natToBytes len k).length = len := by
  induction len with
  | zero => intro k; rfl
  | succ n ih => intro k; simp [natToBytes, ih]

theorem specDeclaredMessageLayout_length (next fromKey creator : Nat)
    (text : List Byte) :
    (specDeclaredMessageLayout next fromKey creator text).length =
      32 + 32 + 32 + text.length + 1 := by
  simp only [specDeclaredMessageLayout, List.length_append,
    natToBytes_length, List.length_singleton]

theorem refreshIter_chain (env : Env) (obs : Bool)
    (chain : List (Nat × MessageData)) :
    ∀ (msg : Nat) (view : List Message) (calls fuel : Nat),
      chainOk env msg chain = true → chain.length < fuel →
      refreshIter env obs fuel msg view calls =
        .ok (view ++ chain.map (mkEntry env))
          (calls + chain.length * (if obs then 1 else 0)) := by
  induction chain with
  | nil =>
    intro msg view calls fuel h hf
    simp only [chainOk, beq_iff_eq] at h
    subst h
    cases fuel with
    | zero => omega
    | succ f => simp [refreshIter]
  | cons p rest ih =>
    intro msg view calls fuel h hf
    obtain ⟨q, d⟩ := p
    simp only [chainOk, Bool.and_eq_true, beq_iff_eq, bne_iff_ne, ne_eq] at h
    obtain ⟨⟨⟨h1, h2⟩, h3⟩, h4⟩ := h
    subst h1
    cases fuel with
    | zero => simp at hf
    | succ f =>
      have hread : readMessage env msg = some d := h3
      simp only [refreshIter, if_neg h2, hread]
      rw [ih d.nextMessage (view ++ [mkEntry env (msg, d)])
        (calls + (if obs then 1 else 0)) f h4
        (by simpa using Nat.lt_of_succ_lt_succ hf)]
      congr 1
      · simp
      · simp only [List.length_cons]
        ring

theorem refreshIter_cycle (env : Env) (obs : Bool) (m : Nat)
    (d : MessageData) (hm : m ≠ 0) (hread : readMessage env m = some d)
    (hnext : d.nextMessage = m) :
    ∀ (fuel : Nat) (view : List Message) (calls : Nat),
      refreshIter env obs fuel m view calls =
        .spin (view ++ List.replicate fuel (mkEntry env (m, d)))
          (calls + fuel * (if obs then 1 else 0)) := by
  intro fuel
  induction fuel with
  | zero => intro view calls; simp [refreshIter]
  | succ f ih =>
    intro view calls
    simp only [refreshIter, if_neg hm, hread]
    rw [hnext, ih (view ++ [mkEntry env (m, d)])
      (calls + (if obs then 1 else 0))]
    congr 1
    · rw [List.replicate_succ]
      simp
    · ring

/-- C1: composing a post of a subsequent message for an existing user
(non-null userAccount, previous-message pointer present) with no ban
target yields exactly 2 instructions, allocate-message then post; with
a ban target it yields 2 instructions where the post instruction
carries exactly one extra non-signing account (the ban target) appended
to the no-ban key list; composing the first post for a brand-new user
(userAccount null) yields the 3 instructions allocate message account,
allocate user account, initialize user account, plus the post
instruction. -/
theorem claim1_instruction_shape (programId payer freshUser messageAccount
    u prev ban : Nat) (text : List Byte) :
    (postMessageWithProgramId programId (some u) payer freshUser
        messageAccount text (some prev) none =
      [.createAccount payer messageAccount 1 (32 + 32 + 32 + text.length)
         programId,
       .raw [⟨u, true⟩, ⟨messageAccount, true⟩, ⟨prev, false⟩] programId
         (some text)])
    ∧ (postMessageWithProgramId programId (some u) payer freshUser
        messageAccount text (some prev) none).length = 2
    ∧ (postMessageWithProgramId programId (some u) payer freshUser
        messageAccount text (some prev) (some ban) =
      [.createAccount payer messageAccount 1 (32 + 32 + 32 + text.length)
         programId,
       .raw ([⟨u, true⟩, ⟨messageAccount, true⟩, ⟨prev, false⟩] ++
           [⟨ban, false⟩]) programId (some text)])
    ∧ (postMessageWithProgramId programId (some u) payer freshUser
        messageAccount text (some prev) (some ban)).length = 2
    ∧ (postMessageWithProgramId programId none payer freshUser
        messageAccount text none none =
      [.createAccount payer messageAccount 1 (32 + 32 + 32 + text.length)
         programId,
       .createAccount payer freshUser 1 (1 + 32) programId,
       .raw [⟨freshUser, true⟩, ⟨messageAccount, true⟩] programId none,
       .raw [⟨freshUser, true⟩, ⟨messageAccount, true⟩] programId
         (some text)])
    ∧ (postMessageWithProgramId programId none payer freshUser
        messageAccount text none none).length = 4 :=
  ⟨rfl, rfl, rfl, rfl, rfl, rfl⟩

/-- C4: in postMessageWithProgramId the ban target is appended to the
post instruction key list, as a non-signing account, exactly when both
a ban target and a previous-message reference are supplied; a ban
target without a previous-message reference is dropped silently and
the composed transaction is identical to the no-ban composition. -/
theorem claim4_ban_requires_previous (programId payer freshUser
    messageAccount ban prev : Nat) (userAccount : Option Nat)
    (text : List Byte) :
    (postMessageWithProgramId programId userAccount payer freshUser
        messageAccount text none (some ban) =
      postMessageWithProgramId programId userAccount payer freshUser
        messageAccount text none none)
    ∧ ((postMessageWithProgramId programId userAccount payer freshUser
          messageAccount text (some prev) (some ban)).getLast? =
        some (.raw ([⟨userAccount.getD freshUser, true⟩,
            ⟨messageAccount, true⟩, ⟨prev, false⟩] ++ [⟨ban, false⟩])
          programId (some text)))
    ∧ ((postMessageWithProgramId programId userAccount payer freshUser
          messageAccount text (some prev) none).getLast? =
        some (.raw [⟨userAccount.getD freshUser, true⟩,
            ⟨messageAccount, true⟩, ⟨prev, false⟩] programId (some text)))
    ∧ ((postMessageWithProgramId programId userAccount payer freshUser
          messageAccount text none none).getLast? =
        some (.raw [⟨userAccount.getD freshUser, true⟩,
            ⟨messageAccount, true⟩] programId (some text))) := by
  cases userAccount <;> exact ⟨rfl, rfl, rfl, rfl⟩

/-- C7 counterexample: with empty text the allocation instruction
requests 96 bytes, but the layout the spec declares (three 32-byte
pointers, then the text followed by one null terminator) occupies 97
bytes, so the requested size cannot hold the declared layout. -/
theorem claim7_alloc_size_counterexample :
    (postMessageWithProgramId 9 (some 4) 5 6 7 [] (some 8) none).head? =
      some (.createAccount 5 7 1 96 9)
    ∧ (specDeclaredMessageLayout 0 0 0 []).length = 97
    ∧ ¬(96 ≥ 97) :=
  ⟨rfl, by decide, by omega⟩

/-- C7 amended: the allocation instruction requests exactly the sum of
the three fixed 32-byte pointer widths plus the byte length of the
text, with no terminator byte; that size is exactly one byte smaller
than the layout the spec declares, which ends with the text bytes
followed by one null terminator. -/
theorem claim7_alloc_size_amended (programId payer freshUser
    messageAccount next fromKey creator : Nat) (userAccount : Option Nat)
    (prev ban : Option Nat) (text : List Byte) :
    (postMessageWithProgramId programId userAccount payer freshUser
        messageAccount text prev ban).head? =
      some (.createAccount payer messageAccount 1
        (32 + 32 + 32 + text.length) programId)
    ∧ (32 + 32 + 32 + text.length) + 1 =
      (specDeclaredMessageLayout next fromKey creator text).length := by
  constructor
  · cases userAccount <;> rfl
  · rw [specDeclaredMessageLayout_length]

/-- C2: for an acyclic on-ledger chain A -> B -> C -> sentinel,
refreshMessageFeed started from A appends exactly the entries for A, B
and C to the given view, in that order, on any view and for any
sufficient step budget; the loop awaits each read before issuing the
next, so the result is a deterministic function of the ledger contents
and network timing cannot reorder it. -/
theorem claim2_order_preservation (env : Env) (obs : Bool) (a b c : Nat)
    (da db dc : MessageData) (view : List Message) (fuel : Nat)
    (h : chainOk env a [(a, da), (b, db), (c, dc)] = true)
    (hf : 3 < fuel) :
    refreshMessageFeed env obs fuel (some a) view =
      .ok (view ++ [mkEntry env (a, da), mkEntry env (b, db),
          mkEntry env (c, dc)])
        (3 * (if obs then 1 else 0)) := by
  have h2 := refreshIter_chain env obs [(a, da), (b, db), (c, dc)] a view
    0 fuel h (by simpa using hf)
  simpa using h2

theorem claim2_order_preservation_witness :
    refreshMessageFeed envABC false 5 (some 1) [] =
      .ok [⟨1, 0, "user", [65]⟩, ⟨2, 0, "user", [66]⟩,
        ⟨3, 0, "user", [67]⟩] 0 :=
  claim2_order_preservation envABC false 1 2 3 ⟨2, 0, 9, [65]⟩
    ⟨3, 0, 9, [66]⟩ ⟨0, 0, 9, [67]⟩ [] 5 (by decide) (by decide)

/-- C3 counterexample to the cycle-guard half of the claim: on a ledger
whose single message points back to itself, the traversal is still
looping after 6 iterations, having appended the same pointer 6 times;
no repeat of a pointer is detected and no ChainTooLong-style failure is
ever produced, where a fail-fast guard would have terminated the run
with an error as soon as the pointer repeated. -/
theorem claim3_cycle_guard_counterexample :
    refreshMessageFeed envCyc false 6 (some 1) [] =
      .spin (List.replicate 6 ⟨1, 0, "user", [65]⟩) 0 := by
  decide

/-- C3 amended: over a sentinel-terminated acyclic chain, refresh with
a null start resumes after the last known entry and appends exactly the
entries of the unknown suffix, i.e. chain length minus already-known,
then terminates normally; but the implementation has no repeat-pointer
guard: on a self-referential message it runs forever, re-appending the
same entry at every iteration and never returning or failing, whatever
the step budget. -/
theorem claim3_sentinel_termination_amended :
    (∀ (env : Env) (obs : Bool) (view : List Message) (e : Message)
       (d : MessageData) (suffix : List (Nat × MessageData)) (fuel : Nat),
       view.getLast? = some e → readMessage env e.publicKey = some d →
       chainOk env d.nextMessage suffix = true → suffix.length < fuel →
       refreshMessageFeed env obs fuel none view =
         .ok (view ++ suffix.map (mkEntry env))
           (suffix.length * (if obs then 1 else 0)))
    ∧ (∀ (env : Env) (obs : Bool) (m : Nat) (d : MessageData)
         (view : List Message) (fuel : Nat),
         readMessage env m = some d → d.nextMessage = m → m ≠ 0 →
         refreshMessageFeed env obs fuel (some m) view =
           .spin (view ++ List.replicate fuel (mkEntry env (m, d)))
             (fuel * (if obs then 1 else 0))) := by
  constructor
  · intro env obs view e d suffix fuel hlast hread hchain hf
    simp only [refreshMessageFeed, hlast, hread]
    simpa using refreshIter_chain env obs suffix d.nextMessage view 0 fuel
      hchain hf
  · intro env obs m d view fuel hread hnext hm
    simp only [refreshMessageFeed]
    simpa using refreshIter_cycle env obs m d hm hread hnext fuel view 0

theorem claim3_sentinel_termination_amended_witness :
    refreshMessageFeed envABC false 4 none [⟨1, 0, "user", [65]⟩] =
      .ok [⟨1, 0, "user", [65]⟩, ⟨2, 0, "user", [66]⟩,
        ⟨3, 0, "user", [67]⟩] 0
    ∧ refreshMessageFeed envCyc false 3 (some 1) [] =
      .spin [⟨1, 0, "user", [65]⟩, ⟨1, 0, "user", [65]⟩,
        ⟨1, 0, "user", [65]⟩] 0 :=
  ⟨claim3_sentinel_termination_amended.1 envABC false
      [⟨1, 0, "user", [65]⟩] ⟨1, 0, "user", [65]⟩ ⟨2, 0, 9, [65]⟩
      [(2, ⟨3, 0, 9, [66]⟩), (3, ⟨0, 0, 9, [67]⟩)] 4 rfl (by decide)
      (by decide) (by decide),
   claim3_sentinel_termination_amended.2 envCyc false 1 ⟨1, 0, 9, [65]⟩
      [] 3 (by decide) rfl (by decide)⟩

/-- C5 counterexample: in the earlier variant, calling
refreshMessageFeed with a null start pointer on an empty view is not a
no-op returning immediately: the code indexes the empty array and
dereferences undefined, so the call throws instead of returning. -/
theorem claim5_empty_noop_counterexample :
    refreshMessageFeedV1 envABC false 5 none [] = .fail ∧
      refreshMessageFeedV1 envABC false 5 none [] ≠ .ok [] 0 :=
  ⟨rfl, by decide⟩

/-- C5 amended: in the ban-capable variant, refresh with a null start
pointer on an empty view is a no-op: it returns immediately with the
view unchanged and the observer never invoked, and the result does not
depend on the ledger, the observer or the step budget at all, so no
account is read; in the earlier variant the same call throws instead of
returning, as it indexes the empty array without a guard. -/
theorem claim5_empty_noop_amended (env envB : Env) (obs obsB : Bool)
    (fuel fuelB : Nat) :
    refreshMessageFeed env obs fuel none [] = .ok [] 0
    ∧ refreshMessageFeed env obs fuel none [] =
      refreshMessageFeed envB obsB fuelB none []
    ∧ refreshMessageFeedV1 env obs fuel none [] = .fail :=
  ⟨rfl, rfl, rfl⟩

/-- C6: refresh is idempotent at the tail: when the view is non-empty
and re-reading its last entry yields a message whose nextMessage is the
all-zero sentinel (the chain has not grown), refresh with a null start
pointer returns the view exactly unchanged and never invokes the
observer. -/
theorem claim6_refresh_idempotent_at_tail (env : Env) (obs : Bool)
    (view : List Message) (e : Message) (d : MessageData) (fuel : Nat)
    (hlast : view.getLast? = some e)
    (hread : readMessage env e.publicKey = some d)
    (hnext : d.nextMessage = 0) (hf : 0 < fuel) :
    refreshMessageFeed env obs fuel none view = .ok view 0 := by
  have h := refreshIter_chain env obs [] d.nextMessage view 0 fuel
    (by simp [chainOk, hnext]) (by simpa using hf)
  simp only [refreshMessageFeed, hlast, hread]
  simpa using h

theorem claim6_refresh_idempotent_at_tail_witness :
    refreshMessageFeed envABC false 2 none
      [⟨1, 0, "user", [65]⟩, ⟨2, 0, "user", [66]⟩, ⟨3, 0, "user", [67]⟩] =
      .ok [⟨1, 0, "user", [65]⟩, ⟨2, 0, "user", [66]⟩,
        ⟨3, 0, "user", [67]⟩] 0 :=
  claim6_refresh_idempotent_at_tail envABC false
    [⟨1, 0, "user", [65]⟩, ⟨2, 0, "user", [66]⟩, ⟨3, 0, "user", [67]⟩]
    ⟨3, 0, "user", [67]⟩ ⟨0, 0, 9, [67]⟩ 2 rfl (by decide) rfl
    (by decide)

/-- C8: getFirstMessage returns only upon a fetched response with a
false loading flag, and then returns exactly that response, the first
ready one; every transport or parse failure and every loading response
is consumed locally, never raised, and is followed by one fixed 1000 ms
sleep before the next attempt, so reaching the first ready response at
position k costs k + 1 attempts and k * 1000 ms of sleep; while no
ready response has been observed the function has not returned; and on
the sequence loading, error, loading, ready it returns the final
metadata after exactly 4 attempts. -/
theorem claim8_poller_convergence :
    (∀ (pre post : List FetchResult) (meta : FeedMeta),
       (∀ r ∈ pre, isReady r = false) →
       getFirstMessage (pre ++ .ok false meta :: post) =
         some (meta, pre.length + 1, pre.length * 1000))
    ∧ (∀ rs : List FetchResult, (∀ r ∈ rs, isReady r = false) →
        getFirstMessage rs = none)
    ∧ (∀ m1 m2 meta : FeedMeta,
        getFirstMessage [.ok true m1, .err, .ok true m2, .ok false meta] =
          some (meta, 4, 3000)) := by
  refine ⟨?_, ?_, ?_⟩
  · intro pre
    induction pre with
    | nil => intro post meta _; rfl
    | cons r rest ih =>
      intro post meta hpre
      have hr : isReady r = false := hpre r (by simp)
      have hrest : ∀ x ∈ rest, isReady x = false := fun x hx =>
        hpre x (by simp [hx])
      have ihr := ih post meta hrest
      have harith : (rest.length + 1) * 1000 = rest.length * 1000 + 1000 := by
        ring
      cases r with
      | err =>
        simp only [List.cons_append, getFirstMessage, List.append_eq,
          ihr, List.length_cons, harith]
      | ok loading config =>
        cases loading with
        | false => simp [isReady] at hr
        | true =>
          simp only [List.cons_append, getFirstMessage, List.append_eq,
            ihr, List.length_cons, harith]
  · intro rs
    induction rs with
    | nil => intro _; rfl
    | cons r rest ih =>
      intro hrs
      have hr : isReady r = false := hrs r (by simp)
      have hrest := ih fun x hx => hrs x (by simp [hx])
      cases r with
      | err => simp [getFirstMessage, hrest]
      | ok loading config =>
        cases loading with
        | false => simp [isReady] at hr
        | true => simp [getFirstMessage, hrest]
  · intro m1 m2 meta
    rfl

theorem claim8_poller_convergence_witness :
    getFirstMessage [.ok true ⟨1, "local", 2, "u"⟩, .err,
      .ok true ⟨3, "local", 4, "v"⟩, .ok false ⟨5, "local", 6, "w"⟩] =
      some (⟨5, "local", 6, "w"⟩, 4, 3000) :=
  claim8_poller_convergence.1
    [.ok true ⟨1, "local", 2, "u"⟩, .err, .ok true ⟨3, "local", 4, "v"⟩]
    [] ⟨5, "local", 6, "w"⟩ (by decide)

/-- C9: for every backing account whose data is long enough for the
user layout, one flag byte followed by a 32-byte creator field,
userBanned returns exactly the comparison of the first byte against
zero; it is a pure function of the account bytes, so a second decode of
the same unchanged bytes yields the same answer, and once it returns
true for an unchanged account it returns true on every later call. -/
theorem claim9_is_banned (ledger : Nat → Option AccountInfo) (user : Nat)
    (info : AccountInfo) (b : Byte) (rest : List Byte)
    (hacct : ledger user = some info) (hdata : info.data = b :: rest)
    (hlen : 32 ≤ rest.length) :
    userBanned ledger user = .ok (b != 0)
    ∧ (userBanned ledger user = .ok true ↔ b ≠ 0) := by
  have h1 : userBanned ledger user = .ok (b != 0) := by
    simp [userBanned, hacct, hdata]
  refine ⟨h1, ?_⟩
  rw [h1]
  simp

theorem claim9_is_banned_witness :
    userBanned (mkLedger [(7, ⟨9, 1 :: List.replicate 32 0⟩)]) 7 =
      .ok true :=
  (claim9_is_banned (mkLedger [(7, ⟨9, 1 :: List.replicate 32 0⟩)]) 7
    ⟨9, 1 :: List.replicate 32 0⟩ 1 (List.replicate 32 0) (by decide)
    rfl (by decide)).1

/-- C10 counterexample: an account whose data is the single byte 1 is
far shorter than the 33-byte fixed prefix of the user layout, yet
userBanned does not fail with malformedAccount: the u8 flag read
succeeds and the blob(32) creator field silently truncates, so the call
returns the boolean true. -/
theorem claim10_error_typing_counterexample :
    userBanned (mkLedger [(7, ⟨9, [1]⟩)]) 7 = .ok true ∧
      ([1] : List Byte).length < 1 + 32 :=
  ⟨rfl, by decide⟩

/-- C10 amended: userBanned fails with accountNotFound when the
identity has no backing account, and with malformedAccount exactly when
the account data is empty, so that the one-byte flag read is out of
range; for any non-empty data, even data shorter than the 33-byte
layout, the lenient decode succeeds and a boolean is returned, the
comparison of the first byte against zero. -/
theorem claim10_error_typing_amended (ledger : Nat → Option AccountInfo)
    (user : Nat) :
    (ledger user = none →
      userBanned ledger user = .error .accountNotFound)
    ∧ (∀ info : AccountInfo, ledger user = some info → info.data = [] →
        userBanned ledger user = .error .malformedAccount)
    ∧ (∀ (info : AccountInfo) (b : Byte) (rest : List Byte),
        ledger user = some info → info.data = b :: rest →
        userBanned ledger user = .ok (b != 0)) := by
  refine ⟨?_, ?_, ?_⟩
  · intro h
    simp [userBanned, h]
  · intro info hacct hdata
    simp [userBanned, hacct, hdata]
  · intro info b rest hacct hdata
    simp [userBanned, hacct, hdata]

theorem claim10_error_typing_amended_witness :
    userBanned (mkLedger []) 7 = .error .accountNotFound ∧
    userBanned (mkLedger [(7, ⟨9, ([] : List Byte)⟩)]) 7 =
      .error .malformedAccount ∧
    userBanned (mkLedger [(7, ⟨9, [0, 5]⟩)]) 7 = .ok false :=
  ⟨(claim10_error_typing_amended (mkLedger []) 7).1 rfl,
   (claim10_error_typing_amended (mkLedger [(7, ⟨9, ([] : List Byte)⟩)])
      7).2.1 ⟨9, ([] : List Byte)⟩ (by decide) rfl,
   (claim10_error_typing_amended (mkLedger [(7, ⟨9, [0, 5]⟩)]) 7).2.2
      ⟨9, [0, 5]⟩ 0 [5] (by decide) rfl⟩
